import Mathlib

/-!
# Verification of the `loggy` logging library

A shallow embedding of the `loggy` Go package: severity levels, the
`Logger` configuration record, construction (`New`) with functional
options, the runtime mutators (`UpdateWriter`, `SetLevel`), and the
write path (`Log`, `Fatal`, `Fatalf`).

Modelling conventions:
* Go strings are byte slices indexed by position; they are modelled as
  `List Char` so that the index- and slice-based operations of the source
  (`name[0]`, `name[2:len-1]`, last-byte tests) translate directly.
* `Severity` is a Go `uint32`; all operations on it here are order
  comparisons on small constants, so it is modelled as `Nat`.
* The wall clock and `time.Format` are external to the library: the
  already-formatted timestamp reaches `Log` as the parameter `ts`.
* `runtime.Caller` is external: call-site resolution is the oracle
  parameter `resolve : Nat → Option (List Char × Nat)` mapping a skip
  depth to `some (file path, line)` on success and `none` on failure,
  exactly the `(file, line, ok)` result shape of the source.
* The destination's write behaviour is the oracle
  `wr : List Char → Option (List Char)`: given the bytes written it
  returns `some errText` when the write fails and `none` on success.
* A `Writer` value denotes one concrete destination instance: `id` is
  its identity (Go interface equality) and `hasLock` records whether the
  instance implements the `locker` interface.
* A Go `interface{}` message component is either a `Caller` depth, a
  string, or some other value; an "other" value is carried together with
  its default (`%v`) rendering, which is all `fmt.Sprint` uses of it.
-/

namespace Loggy

/-- Go `type Severity uint32`; modelled as `Nat`. -/
abbrev Severity := Nat

/-- `DebugIssuer Severity = iota` (0). -/
def DebugIssuer : Severity := 0

/-- `InfoIssuer` (1). -/
def InfoIssuer : Severity := 1

/-- `WarnIssuer` (2). -/
def WarnIssuer : Severity := 2

/-- `ErrorIssuer` (3). -/
def ErrorIssuer : Severity := 3

/-- `FatalIssuer` (4). -/
def FatalIssuer : Severity := 4

/-- `DisableIssuer` (5), the sentinel level that disables all logging. -/
def DisableIssuer : Severity := 5

/-- One concrete destination instance: `id` is instance identity
(Go interface-value equality), `hasLock` whether it implements `locker`. -/
structure Writer where
  id : Nat
  hasLock : Bool
deriving DecidableEq

/-- The `Logger` struct of `types.go`. -/
structure Logger where
  name : List Char
  writer : Writer
  minLevel : Severity
  timeFormat : List Char
  useUTC : Bool
  severityNames : List (List Char)
deriving DecidableEq

/-- The three option constructors the library exports.  A Go `Option` is
`func(*Logger)`; the library's options are exactly these three field
updates, so an option value is modelled by its constructor data. -/
inductive Opt where
  | timeFormat (format : List Char)
  | utc (useUTC : Bool)
  | severityNames (names : List (List Char))
deriving DecidableEq

/-- `WithTimeFormat` returns the option that sets `timeFormat`. -/
def WithTimeFormat (format : List Char) : Opt := Opt.timeFormat format

/-- `WithUTC` returns the option that sets `useUTC`. -/
def WithUTC (utc : Bool) : Opt := Opt.utc utc

/-- `WithSeverityNames` returns the option that replaces the severity
labels; its body applies them only when exactly five are supplied. -/
def WithSeverityNames (names : List (List Char)) : Opt := Opt.severityNames names

/-- Running one option function on the logger, exactly as each option's
closure body does: `WithSeverityNames` guards on `len(names) == 5`. -/
def applyOpt (l : Logger) : Opt → Logger
  | Opt.timeFormat f => { l with timeFormat := f }
  | Opt.utc b => { l with useUTC := b }
  | Opt.severityNames ns => if ns.length = 5 then { l with severityNames := ns } else l

/-- The default time format `New` installs. -/
def defaultTimeFormat : List Char := "2006-01-02 15:04:05.000000".toList

/-- The default severity labels `New` installs. -/
def defaultSeverityNames : List (List Char) :=
  ["debug:".toList, "info:".toList, "warn:".toList, "error:".toList, "fatal:".toList]

/-- `New(name, writer, minLevel, opts...)`.  The two Go `panic`s (bad
name format; nil writer or `minLevel > DisableIssuer`) are modelled as
`none`; a successful construction is `some` of the logger after folding
the options over the defaulted record. -/
def New (name : List Char) (writer : Option Writer) (minLevel : Severity)
    (opts : List Opt) : Option Logger :=
  if name.length < 3 ∨ name.getD 0 ' ' ≠ ':' ∨ name.getD 1 ':' ≠ ' ' ∨
      name.getD (name.length - 1) ' ' ≠ ':' then
    none
  else
    match writer with
    | none => none
    | some w =>
      if DisableIssuer < minLevel then none
      else some (opts.foldl applyOpt
        { name := name
          writer := w
          minLevel := minLevel
          timeFormat := defaultTimeFormat
          useUTC := false
          severityNames := defaultSeverityNames })

/-- `Name()` returns `l.name[2 : len(l.name)-1]`: drop the first two
bytes and the last byte. -/
def Name (l : Logger) : List Char := (l.name.drop 2).dropLast

/-- `UpdateWriter(w)`: rejects nil; rejects when both current and new
writer implement `locker` and are not the identical instance; otherwise
installs `w`.  Returns the Go boolean result paired with the logger
afterwards. -/
def UpdateWriter (l : Logger) (w : Option Writer) : Bool × Logger :=
  match w with
  | none => (false, l)
  | some w =>
    if l.writer.hasLock = true ∧ w.hasLock = true ∧ l.writer ≠ w then (false, l)
    else (true, { l with writer := w })

/-- `SetLevel(level)`: stores the level only when `level ≤ DisableIssuer`. -/
def SetLevel (l : Logger) (level : Severity) : Logger :=
  if level ≤ DisableIssuer then { l with minLevel := level } else l

/-- `GetLevel()` returns the current minimum level. -/
def GetLevel (l : Logger) : Severity := l.minLevel

/-- One `interface{}` message component reaching `Log`: a `Caller`
depth marker (a Go `int`), a string, or any other value carried with
its default `%v` rendering. -/
inductive Arg where
  | caller (depth : Int)
  | str (s : List Char)
  | other (rendered : List Char)
deriving DecidableEq

/-- Whether the component is a Go string (`fmt.Sprint` inserts a space
between adjacent operands only when neither is a string). -/
def Arg.isString : Arg → Bool
  | Arg.str _ => true
  | _ => false

/-- The default (`%v`) rendering of one component: a string renders as
itself, a `Caller` as its decimal integer, and an "other" value as the
rendering it carries. -/
def Arg.render : Arg → List Char
  | Arg.str s => s
  | Arg.caller d => (toString d).toList
  | Arg.other r => r

/-- `fmt.Sprint(msg...)`: operands in their default formats,
concatenated, with a space between two adjacent operands when neither
is a string. -/
def sprint : List Arg → List Char
  | [] => []
  | [a] => a.render
  | a :: b :: rest =>
      a.render ++ (if a.isString || b.isString then [] else [' ']) ++ sprint (b :: rest)

/-- The message-combination step of `Log`: a single string component is
written verbatim; a single non-string goes through `fmt.Sprint`; several
components go through `fmt.Sprint(msg...)`. -/
def renderBody : List Arg → List Char
  | [Arg.str s] => s
  | [a] => sprint [a]
  | msg => sprint msg

/-- Clamping of the caller depth in `Log`: negative depths become 0,
depths above 99 become 99. -/
def clampSkip (d : Int) : Int :=
  if d < 0 then 0 else if 99 < d then 99 else d

/-- The caller-marker consumption step of `Log`: when the first
component is a `Caller`, it is removed and its clamped value is the
skip depth; otherwise the skip depth is 0 and the components are kept. -/
def stripMarker : List Arg → Nat × List Arg
  | Arg.caller d :: rest => ((clampSkip d).toNat, rest)
  | msg => (0, msg)

/-- `filepath.Base` (slash-separated paths): empty path gives `"."`;
otherwise trailing separators are stripped, everything up to the last
separator is discarded, and an all-separator path gives `"/"`. -/
def filepathBase (path : List Char) : List Char :=
  if path = [] then ['.']
  else
    let trimmed := (path.reverse.dropWhile (fun c => c == '/')).reverse
    let base := (trimmed.reverse.takeWhile (fun c => c != '/')).reverse
    if base = [] then ['/'] else base

/-- The call-site segment of the line: on successful resolution a space,
the base file name, a colon, the decimal line number and a colon; on
failure nothing. -/
def callerSeg : Option (List Char × Nat) → List Char
  | some fl => [' '] ++ filepathBase fl.1 ++ [':'] ++ (toString fl.2).toList ++ [':']
  | none => []

/-- The newline step of `Log`: append a `'\n'` when the built line is
empty or its last byte is not `'\n'`. -/
def ensureNL (s : List Char) : List Char :=
  if s.length = 0 ∨ s.getLast? ≠ some '\n' then s ++ ['\n'] else s

/-- The line `Log` builds once it is past its short circuits: the
formatted timestamp, the name with its delimiters, the severity label,
the call-site segment for the consumed-and-clamped skip depth plus the
two fixed frames, a single space, the rendered message, and the
conditional trailing newline.  The label lookup `severityNames[level]`
is total here via `getD`; that it never falls back to the default for a
logger reachable through the API is proved below. -/
def logLine (l : Logger) (ts : List Char) (resolve : Nat → Option (List Char × Nat))
    (level : Severity) (msg : List Arg) : List Char :=
  ensureNL (ts ++ l.name ++ l.severityNames.getD level [] ++
    callerSeg (resolve ((stripMarker msg).1 + 2)) ++ [' '] ++
    renderBody (stripMarker msg).2)

/-- `Log(level, msg...)`.  `ts` is the already-formatted timestamp,
`resolve` the `runtime.Caller` oracle, `wr` the destination's write
oracle (`some errText` on failure).  The result is the pair
(bytes written to the destination, returned error): `(none, none)` on
the short-circuit paths, and `(some line, wr line)` when a line is
assembled and written. -/
def Log (l : Logger) (ts : List Char) (resolve : Nat → Option (List Char × Nat))
    (wr : List Char → Option (List Char)) (level : Severity) (msg : List Arg) :
    Option (List Char) × Option (List Char) :=
  if level < l.minLevel ∨ DisableIssuer ≤ level ∨ msg = [] then (none, none)
  else if (stripMarker msg).2 = [] then (none, none)
  else (some (logLine l ts resolve level msg), wr (logLine l ts resolve level msg))

/-- `Fatal(msg...)`: runs `Log` at the Fatal level, then always panics
with the bare name, the Fatal label, and the write error's text when
the write path returned one.  Since the Go function ends in an
unconditional `panic`, its outcome is modelled as the pair
(bytes written, panic message). -/
def Fatal (l : Logger) (ts : List Char) (resolve : Nat → Option (List Char × Nat))
    (wr : List Char → Option (List Char)) (msg : List Arg) :
    Option (List Char) × List Char :=
  ((Log l ts resolve wr FatalIssuer msg).1,
   Name l ++ l.severityNames.getD FatalIssuer [] ++
     (match (Log l ts resolve wr FatalIssuer msg).2 with
      | some e => e
      | none => []))

/-- `Fatalf(format, args...)`: runs `Log` at the Fatal level on the one
pre-rendered string `fmt.Sprintf(format, args...)` (here the parameter
`rendered`), then always panics with the same message shape as `Fatal`. -/
def Fatalf (l : Logger) (ts : List Char) (resolve : Nat → Option (List Char × Nat))
    (wr : List Char → Option (List Char)) (rendered : List Char) :
    Option (List Char) × List Char :=
  ((Log l ts resolve wr FatalIssuer [Arg.str rendered]).1,
   Name l ++ l.severityNames.getD FatalIssuer [] ++
     (match (Log l ts resolve wr FatalIssuer [Arg.str rendered]).2 with
      | some e => e
      | none => []))

/-- The loggers reachable through the library's API: produced by a
successful `New` (with any options) and closed under the two runtime
mutators `SetLevel` and `UpdateWriter`. -/
inductive Reachable : Logger → Prop where
  | new (name : List Char) (w : Option Writer) (minLevel : Severity) (opts : List Opt)
      (l : Logger) : New name w minLevel opts = some l → Reachable l
  | setLevel (l : Logger) (level : Severity) : Reachable l → Reachable (SetLevel l level)
  | updateWriter (l : Logger) (w : Option Writer) : Reachable l →
      Reachable (UpdateWriter l w).2

/-- The number of trailing line terminators of a byte sequence. -/
def trailingNL (s : List Char) : Nat :=
  (s.reverse.takeWhile (fun c => c == '\n')).length

/-! Concrete test vectors used by the witnesses and counterexamples. -/

/-- A destination without the lock capability. -/
def plainWriter : Writer := { id := 0, hasLock := false }

/-- A lock-capable destination. -/
def lockWriterA : Writer := { id := 1, hasLock := true }

/-- A second, distinct lock-capable destination. -/
def lockWriterB : Writer := { id := 2, hasLock := true }

/-- The logger `New(": svc:", plainWriter, DebugIssuer)` produces. -/
def sampleLogger : Logger :=
  { name := ": svc:".toList
    writer := plainWriter
    minLevel := DebugIssuer
    timeFormat := defaultTimeFormat
    useUTC := false
    severityNames := defaultSeverityNames }

/-- The sample logger with a lock-capable destination. -/
def lockLogger : Logger := { sampleLogger with writer := lockWriterA }

/-- The sample logger with the minimum level at the Disabled sentinel. -/
def mutedLogger : Logger := { sampleLogger with minLevel := DisableIssuer }

/-- The logger `New(": x:", plainWriter, DebugIssuer)` produces. -/
def xLogger : Logger := { sampleLogger with name := [':', ' ', 'x', ':'] }

/-- A five-element custom label list. -/
def customFive : List (List Char) :=
  ["DBG".toList, "INF".toList, "WRN".toList, "ERR".toList, "FTL".toList]

/-- A three-element label list (wrong cardinality). -/
def customThree : List (List Char) := ["a".toList, "b".toList, "c".toList]

/-! Helper lemmas. -/

/-- No option function changes the stored minimum level. -/
theorem applyOpt_minLevel (l : Logger) (o : Opt) : (applyOpt l o).minLevel = l.minLevel := by
  cases o with
  | timeFormat f => rfl
  | utc b => rfl
  | severityNames ns =>
      simp only [applyOpt]
      split <;> rfl

/-- No option function changes the stored name. -/
theorem applyOpt_name (l : Logger) (o : Opt) : (applyOpt l o).name = l.name := by
  cases o with
  | timeFormat f => rfl
  | utc b => rfl
  | severityNames ns =>
      simp only [applyOpt]
      split <;> rfl

/-- Every option function keeps the label list at five entries. -/
theorem applyOpt_labels (l : Logger) (o : Opt) (h : l.severityNames.length = 5) :
    (applyOpt l o).severityNames.length = 5 := by
  cases o with
  | timeFormat f => exact h
  | utc b => exact h
  | severityNames ns =>
      simp only [applyOpt]
      split
      · assumption
      · exact h

/-- Folding any option list never changes the minimum level. -/
theorem foldl_applyOpt_minLevel (opts : List Opt) (l : Logger) :
    (opts.foldl applyOpt l).minLevel = l.minLevel := by
  induction opts generalizing l with
  | nil => rfl
  | cons o t ih => rw [List.foldl_cons, ih, applyOpt_minLevel]

/-- Folding any option list never changes the name. -/
theorem foldl_applyOpt_name (opts : List Opt) (l : Logger) :
    (opts.foldl applyOpt l).name = l.name := by
  induction opts generalizing l with
  | nil => rfl
  | cons o t ih => rw [List.foldl_cons, ih, applyOpt_name]

/-- Folding any option list keeps the label list at five entries. -/
theorem foldl_applyOpt_labels (opts : List Opt) (l : Logger)
    (h : l.severityNames.length = 5) : (opts.foldl applyOpt l).severityNames.length = 5 := by
  induction opts generalizing l with
  | nil => exact h
  | cons o t ih => exact ih _ (applyOpt_labels _ _ h)

/-- Inverting a successful construction: the minimum level is the one
supplied and is ≤ Disabled, the name is stored verbatim, and the label
list has five entries. -/
theorem New_inv {name : List Char} {w : Option Writer} {ml : Severity} {opts : List Opt}
    {l : Logger} (h : New name w ml opts = some l) :
    l.minLevel = ml ∧ ml ≤ DisableIssuer ∧ l.name = name ∧ l.severityNames.length = 5 := by
  cases w with
  | none =>
      simp only [New] at h
      split at h <;> exact absurd h (by simp)
  | some ww =>
      simp only [New] at h
      split at h
      · exact absurd h (by simp)
      · split at h
        · exact absurd h (by simp)
        · rename_i hml
          have hl := Option.some.inj h
          subst hl
          refine ⟨foldl_applyOpt_minLevel _ _, Nat.le_of_not_lt hml, foldl_applyOpt_name _ _, ?_⟩
          exact foldl_applyOpt_labels _ _ (by rfl)

/-- Every reachable logger satisfies `minLevel ≤ DisableIssuer`. -/
theorem reachable_minLevel {l : Logger} (h : Reachable l) : l.minLevel ≤ DisableIssuer := by
  induction h with
  | new name w ml opts l hn =>
      obtain ⟨h1, h2, _, _⟩ := New_inv hn
      rw [h1]
      exact h2
  | setLevel l lv _ ih =>
      simp only [SetLevel]
      split
      · assumption
      · exact ih
  | updateWriter l w _ ih =>
      cases w with
      | none => exact ih
      | some ww =>
          simp only [UpdateWriter]
          split
          · exact ih
          · exact ih

/-- Every reachable logger has exactly five severity labels. -/
theorem reachable_labels {l : Logger} (h : Reachable l) : l.severityNames.length = 5 := by
  induction h with
  | new name w ml opts l hn => exact (New_inv hn).2.2.2
  | setLevel l lv _ ih =>
      simp only [SetLevel]
      split
      · exact ih
      · exact ih
  | updateWriter l w _ ih =>
      cases w with
      | none => exact ih
      | some ww =>
          simp only [UpdateWriter]
          split
          · exact ih
          · exact ih

/-- Closed form of the newline step applied after the mandatory space:
the line keeps its prefix and body, and gains a terminator exactly when
the body does not already end with one. -/
theorem ensureNL_space (a body : List Char) :
    ensureNL (a ++ [' '] ++ body) =
      a ++ [' '] ++ body ++ (if body.getLast? = some '\n' then [] else ['\n']) := by
  unfold ensureNL
  rcases hb : body.getLast? with _ | c
  · have hcond : (a ++ [' '] ++ body).length = 0 ∨
        (a ++ [' '] ++ body).getLast? ≠ some '\n' := by
      right
      rw [List.getLast?_append, hb]
      simp [List.getLast?_append]
    rw [if_pos hcond, if_neg (by simp)]
  · by_cases hc : c = '\n'
    · subst hc
      have hcond : ¬((a ++ [' '] ++ body).length = 0 ∨
          (a ++ [' '] ++ body).getLast? ≠ some '\n') := by
        rw [List.getLast?_append, hb]
        simp
      rw [if_neg hcond, if_pos rfl]
      simp
    · have hcond : (a ++ [' '] ++ body).length = 0 ∨
          (a ++ [' '] ++ body).getLast? ≠ some '\n' := by
        right
        rw [List.getLast?_append, hb]
        simp [hc]
      rw [if_pos hcond, if_neg (by simp [hc])]

/-- Closed form of the assembled line: the exact field order with the
conditional trailing terminator. -/
theorem logLine_eq (l : Logger) (ts : List Char) (resolve : Nat → Option (List Char × Nat))
    (level : Severity) (msg : List Arg) :
    logLine l ts resolve level msg =
      ts ++ l.name ++ l.severityNames.getD level [] ++
        callerSeg (resolve ((stripMarker msg).1 + 2)) ++ [' '] ++
        renderBody (stripMarker msg).2 ++
        (if (renderBody (stripMarker msg).2).getLast? = some '\n' then [] else ['\n']) := by
  unfold logLine
  exact ensureNL_space _ _

/-- `takeWhile` cut off at an element the predicate rejects. -/
theorem takeWhile_append_cons_neg {p : Char → Bool} {c : Char} (hc : p c = false)
    (x y : List Char) : (x ++ c :: y).takeWhile p = x.takeWhile p := by
  induction x with
  | nil => simp [List.takeWhile_cons, hc]
  | cons h t ih =>
      cases hph : p h <;> simp [List.takeWhile_cons, hph, ih]

/-- A space inserted before the body insulates the trailing-terminator
count of the whole line from the prefix. -/
theorem trailingNL_space (a b : List Char) : trailingNL (a ++ [' '] ++ b) = trailingNL b := by
  unfold trailingNL
  rw [List.append_assoc, List.singleton_append, List.reverse_append, List.reverse_cons,
    List.append_assoc, List.singleton_append,
    takeWhile_append_cons_neg (by decide)]

/-- Appending one terminator adds one to the trailing count. -/
theorem trailingNL_concat_nl (b : List Char) : trailingNL (b ++ ['\n']) = trailingNL b + 1 := by
  unfold trailingNL
  rw [List.reverse_append]
  simp [List.takeWhile_cons]

/-- A sequence not ending in a terminator has trailing count zero. -/
theorem trailingNL_eq_zero {b : List Char} (h : b.getLast? ≠ some '\n') : trailingNL b = 0 := by
  unfold trailingNL
  rw [List.getLast?_eq_head?_reverse] at h
  cases hr : b.reverse with
  | nil => simp
  | cons c t =>
      rw [hr] at h
      simp only [List.head?_cons, ne_eq, Option.some.injEq] at h
      simp [List.takeWhile_cons, h]

/-- A sequence ending in a terminator has positive trailing count. -/
theorem trailingNL_pos {b : List Char} (h : b.getLast? = some '\n') : 1 ≤ trailingNL b := by
  unfold trailingNL
  rw [List.getLast?_eq_head?_reverse] at h
  cases hr : b.reverse with
  | nil => rw [hr] at h; exact absurd h (by simp)
  | cons c t =>
      rw [hr] at h
      simp only [List.head?_cons, Option.some.injEq] at h
      subst h
      simp [List.takeWhile_cons]

/-! Claim theorems. -/

/-- C3: whenever the level is below the configured minimum, or is the
Disabled sentinel or greater, or the message sequence is empty, `Log`
returns a nil error and writes nothing to the destination. -/
theorem log_short_circuit (l : Logger) (ts : List Char)
    (resolve : Nat → Option (List Char × Nat)) (wr : List Char → Option (List Char))
    (level : Severity) (msg : List Arg)
    (h : level < l.minLevel ∨ DisableIssuer ≤ level ∨ msg = []) :
    Log l ts resolve wr level msg = (none, none) := by
  unfold Log
  rw [if_pos h]

/-- Witness for C3: a call at the Disabled level writes nothing and
returns no error. -/
theorem log_short_circuit_witness :
    Log sampleLogger ("T".toList) (fun _ => none) (fun _ => none) DisableIssuer
      [Arg.str ("hi".toList)] = (none, none) :=
  log_short_circuit sampleLogger ("T".toList) (fun _ => none) (fun _ => none) DisableIssuer
    [Arg.str ("hi".toList)] (Or.inr (Or.inl (by decide)))

/-- C4: on an accepted call whose first component is a caller-depth
marker, the marker is consumed before message assembly — the emitted
line is built from the remaining components only, with the call site
resolved at the clamped depth — the clamp maps the depth into [0, 99]
(negative values to 0, values above 99 to 99, in-range values kept),
and a marker followed by nothing yields a nil error and no write. -/
theorem log_caller_marker (l : Logger) (ts : List Char)
    (resolve : Nat → Option (List Char × Nat)) (wr : List Char → Option (List Char))
    (level : Severity) (d : Int) (rest : List Arg)
    (hmin : l.minLevel ≤ level) (hlt : level < DisableIssuer) :
    (rest = [] → Log l ts resolve wr level (Arg.caller d :: rest) = (none, none)) ∧
    (rest ≠ [] → Log l ts resolve wr level (Arg.caller d :: rest) =
      (some (ensureNL (ts ++ l.name ++ l.severityNames.getD level [] ++
         callerSeg (resolve ((clampSkip d).toNat + 2)) ++ [' '] ++ renderBody rest)),
       wr (ensureNL (ts ++ l.name ++ l.severityNames.getD level [] ++
         callerSeg (resolve ((clampSkip d).toNat + 2)) ++ [' '] ++ renderBody rest)))) ∧
    0 ≤ clampSkip d ∧ clampSkip d ≤ 99 ∧
    (d < 0 → clampSkip d = 0) ∧ (99 < d → clampSkip d = 99) ∧
    (0 ≤ d → d ≤ 99 → clampSkip d = d) := by
  have hc : ¬(level < l.minLevel ∨ DisableIssuer ≤ level ∨ (Arg.caller d :: rest) = []) := by
    push_neg
    exact ⟨hmin, hlt, by simp⟩
  refine ⟨?_, ?_, ?_, ?_, ?_, ?_, ?_⟩
  · intro hr
    subst hr
    simp [Log, hc, stripMarker]
  · intro hr
    simp [Log, hc, hr, stripMarker, logLine]
    exact ⟨hmin, hlt⟩
  · simp only [clampSkip]
    split
    · omega
    · split <;> omega
  · simp only [clampSkip]
    split
    · omega
    · split <;> omega
  · intro hd
    simp only [clampSkip]
    rw [if_pos hd]
  · intro hd
    simp only [clampSkip]
    rw [if_neg (by omega), if_pos hd]
  · intro h0 h99
    simp only [clampSkip]
    rw [if_neg (by omega), if_neg (by omega)]

/-- Witness for C4: a lone marker produces nothing; a negative marker
is clamped to 0 and the message after it is the whole rendered body. -/
theorem log_caller_marker_witness :
    Log sampleLogger ("T".toList) (fun _ => none) (fun _ => none) InfoIssuer
      [Arg.caller 7] = (none, none) ∧
    Log sampleLogger ("T".toList) (fun _ => none) (fun _ => none) InfoIssuer
      [Arg.caller (-5), Arg.str ("hi".toList)] =
      (some ("T: svc:info: hi\n".toList), none) := by
  have h1 := log_caller_marker sampleLogger ("T".toList) (fun _ => none) (fun _ => none)
    InfoIssuer 7 [] (by decide) (by decide)
  have h2 := log_caller_marker sampleLogger ("T".toList) (fun _ => none) (fun _ => none)
    InfoIssuer (-5) [Arg.str ("hi".toList)] (by decide) (by decide)
  exact ⟨h1.1 rfl, (h2.2.1 (by decide)).trans (by decide)⟩

/-- C5: `UpdateWriter` rejects a nil writer without change; rejects the
swap between two distinct lock-capable destinations without change; and
in every other case succeeds with the new writer installed. -/
theorem updateWriter_policy (l : Logger) :
    UpdateWriter l none = (false, l) ∧
    (∀ w : Writer, l.writer.hasLock = true → w.hasLock = true → l.writer ≠ w →
      UpdateWriter l (some w) = (false, l)) ∧
    (∀ w : Writer, ¬(l.writer.hasLock = true ∧ w.hasLock = true ∧ l.writer ≠ w) →
      UpdateWriter l (some w) = (true, { l with writer := w }) ∧
      ((UpdateWriter l (some w)).2).writer = w) := by
  refine ⟨rfl, ?_, ?_⟩
  · intro w h1 h2 h3
    simp only [UpdateWriter]
    rw [if_pos ⟨h1, h2, h3⟩]
  · intro w h
    simp only [UpdateWriter]
    rw [if_neg h]
    exact ⟨rfl, rfl⟩

/-- Witness for C5: nil rejected; distinct lock-capable pair rejected;
lock-capable to plain and plain to lock-capable both succeed. -/
theorem updateWriter_policy_witness :
    UpdateWriter lockLogger none = (false, lockLogger) ∧
    UpdateWriter lockLogger (some lockWriterB) = (false, lockLogger) ∧
    UpdateWriter lockLogger (some plainWriter) =
      (true, { lockLogger with writer := plainWriter }) ∧
    UpdateWriter sampleLogger (some lockWriterA) =
      (true, { sampleLogger with writer := lockWriterA }) := by
  have h := updateWriter_policy lockLogger
  have h2 := updateWriter_policy sampleLogger
  exact ⟨h.1, h.2.1 lockWriterB (by decide) (by decide) (by decide),
    (h.2.2 plainWriter (by decide)).1, (h2.2.2 lockWriterA (by decide)).1⟩

/-- C7: the set-severity-labels option replaces the five labels exactly
when the supplied sequence has five entries, and otherwise leaves the
logger unchanged (no error is raised: the option is a total function on
loggers). -/
theorem withSeverityNames_policy (l : Logger) (names : List (List Char)) :
    (names.length = 5 →
      applyOpt l (WithSeverityNames names) = { l with severityNames := names }) ∧
    (names.length ≠ 5 → applyOpt l (WithSeverityNames names) = l) := by
  constructor
  · intro h
    simp only [WithSeverityNames, applyOpt]
    rw [if_pos h]
  · intro h
    simp only [WithSeverityNames, applyOpt]
    rw [if_neg h]

/-- Witness for C7: five labels replace, three labels are ignored. -/
theorem withSeverityNames_policy_witness :
    applyOpt sampleLogger (WithSeverityNames customFive) =
      { sampleLogger with severityNames := customFive } ∧
    applyOpt sampleLogger (WithSeverityNames customThree) = sampleLogger :=
  ⟨(withSeverityNames_policy sampleLogger customFive).1 (by decide),
   (withSeverityNames_policy sampleLogger customThree).2 (by decide)⟩

/-- C8: `minimumLevel ≤ DisableIssuer` holds after construction and is
preserved by every API operation: `New` fails on a level above the
sentinel; every reachable logger satisfies the invariant; `SetLevel`
stores a level exactly when it is ≤ the sentinel and otherwise leaves
the logger untouched, so `GetLevel` still reports the prior value. -/
theorem severity_level_invariant :
    (∀ (name : List Char) (w : Option Writer) (ml : Severity) (opts : List Opt),
      DisableIssuer < ml → New name w ml opts = none) ∧
    (∀ l : Logger, Reachable l → l.minLevel ≤ DisableIssuer) ∧
    (∀ (l : Logger) (lv : Severity), lv ≤ DisableIssuer → (SetLevel l lv).minLevel = lv) ∧
    (∀ (l : Logger) (lv : Severity), DisableIssuer < lv →
      SetLevel l lv = l ∧ GetLevel (SetLevel l lv) = GetLevel l) := by
  refine ⟨?_, fun l h => reachable_minLevel h, ?_, ?_⟩
  · intro name w ml opts h
    cases w with
    | none => simp [New]
    | some ww => simp [New, h]
  · intro l lv h
    simp only [SetLevel]
    rw [if_pos h]
  · intro l lv h
    have hne : ¬lv ≤ DisableIssuer := Nat.not_le.mpr h
    simp only [SetLevel]
    rw [if_neg hne]
    exact ⟨rfl, rfl⟩

/-- Witness for C8: construction at level 6 fails; the sample logger
satisfies the invariant; `SetLevel` at Warn takes effect; `SetLevel` at
6 is a no-op observed through `GetLevel`. -/
theorem severity_level_invariant_witness :
    New (": svc:".toList) (some plainWriter) 6 [] = none ∧
    sampleLogger.minLevel ≤ DisableIssuer ∧
    (SetLevel sampleLogger WarnIssuer).minLevel = WarnIssuer ∧
    (SetLevel sampleLogger 6 = sampleLogger ∧
      GetLevel (SetLevel sampleLogger 6) = GetLevel sampleLogger) := by
  have h := severity_level_invariant
  exact ⟨h.1 (": svc:".toList) (some plainWriter) 6 [] (by decide),
    h.2.1 sampleLogger
      (Reachable.new (": svc:".toList) (some plainWriter) DebugIssuer [] sampleLogger
        (by decide)),
    h.2.2.1 sampleLogger WarnIssuer (by decide),
    h.2.2.2 sampleLogger 6 (by decide)⟩

/-- C9: a logger successfully built by `New` from a name of the valid
shape `": <bare>:"` reports exactly `<bare>` through `Name` — the two
colon delimiters and the leading space are stripped. -/
theorem name_strips_delimiters (s : List Char) (w : Option Writer) (ml : Severity)
    (opts : List Opt) (l : Logger)
    (h : New ([':', ' '] ++ s ++ [':']) w ml opts = some l) :
    Name l = s := by
  have hname := (New_inv h).2.2.1
  unfold Name
  rw [hname]
  have : ([':', ' '] ++ s ++ [':']).drop 2 = s ++ [':'] := by simp
  rw [this, List.dropLast_concat]

/-- Witness for C9: the logger built from `": x:"` reports `"x"`. -/
theorem name_strips_delimiters_witness : Name xLogger = ['x'] :=
  name_strips_delimiters ['x'] (some plainWriter) DebugIssuer [] xLogger (by decide)

/-- C10: every logger reachable through the API — built by `New` with
any options, then mutated by any `SetLevel`/`UpdateWriter` calls — has
exactly five severity labels, so the label lookup `severityNames[level]`
in `Log` is in bounds for every loggable level below the sentinel. -/
theorem labels_always_five :
    ∀ l : Logger, Reachable l →
      l.severityNames.length = 5 ∧
      ∀ level : Severity, level < DisableIssuer → level < l.severityNames.length := by
  intro l h
  refine ⟨reachable_labels h, ?_⟩
  intro level hl
  rw [reachable_labels h]
  exact hl

/-- Witness for C10: the sample logger has five labels and the Fatal
level indexes into them. -/
theorem labels_always_five_witness :
    sampleLogger.severityNames.length = 5 ∧
    FatalIssuer < sampleLogger.severityNames.length := by
  have R : Reachable sampleLogger :=
    Reachable.new (": svc:".toList) (some plainWriter) DebugIssuer [] sampleLogger (by decide)
  exact ⟨(labels_always_five sampleLogger R).1,
    (labels_always_five sampleLogger R).2 FatalIssuer (by decide)⟩

/-- C6: `Fatal` and `Fatalf` always reach their panic — modelled by the
total panic-message component of their result — even when the Fatal
level is filtered out and nothing is written; the panic message is the
bare name followed by the Fatal label, with the write error's text
appended exactly when the write path returned an error. -/
theorem fatal_panic_contract (l : Logger) (ts : List Char)
    (resolve : Nat → Option (List Char × Nat)) (wr : List Char → Option (List Char))
    (msg : List Arg) (rendered : List Char) :
    ((Log l ts resolve wr FatalIssuer msg).2 = none →
      (Fatal l ts resolve wr msg).2 = Name l ++ l.severityNames.getD FatalIssuer []) ∧
    (∀ e, (Log l ts resolve wr FatalIssuer msg).2 = some e →
      (Fatal l ts resolve wr msg).2 = Name l ++ l.severityNames.getD FatalIssuer [] ++ e) ∧
    (FatalIssuer < l.minLevel →
      Fatal l ts resolve wr msg = (none, Name l ++ l.severityNames.getD FatalIssuer [])) ∧
    ((Log l ts resolve wr FatalIssuer [Arg.str rendered]).2 = none →
      (Fatalf l ts resolve wr rendered).2 = Name l ++ l.severityNames.getD FatalIssuer []) ∧
    (∀ e, (Log l ts resolve wr FatalIssuer [Arg.str rendered]).2 = some e →
      (Fatalf l ts resolve wr rendered).2 =
        Name l ++ l.severityNames.getD FatalIssuer [] ++ e) ∧
    (FatalIssuer < l.minLevel →
      Fatalf l ts resolve wr rendered =
        (none, Name l ++ l.severityNames.getD FatalIssuer [])) := by
  have hmuted : FatalIssuer < l.minLevel →
      Log l ts resolve wr FatalIssuer msg = (none, none) := by
    intro h
    unfold Log
    rw [if_pos (Or.inl h)]
  have hmutedf : FatalIssuer < l.minLevel →
      Log l ts resolve wr FatalIssuer [Arg.str rendered] = (none, none) := by
    intro h
    unfold Log
    rw [if_pos (Or.inl h)]
  refine ⟨?_, ?_, ?_, ?_, ?_, ?_⟩
  · intro h
    simp [Fatal, h]
  · intro e h
    simp [Fatal, h]
  · intro h
    simp [Fatal, hmuted h]
  · intro h
    simp [Fatalf, h]
  · intro e h
    simp [Fatalf, h]
  · intro h
    simp [Fatalf, hmutedf h]

/-- Witness for C6: with a failing destination the panic message is
name, label and error text; with the Fatal level filtered out nothing
is written and the panic message is name and label alone. -/
theorem fatal_panic_contract_witness :
    Fatal sampleLogger ("T".toList) (fun _ => none) (fun _ => some ("boom".toList))
      [Arg.str ("x".toList)] =
      (some ("T: svc:fatal: x\n".toList), "svcfatal:boom".toList) ∧
    Fatal mutedLogger ("T".toList) (fun _ => none) (fun _ => none)
      [Arg.str ("x".toList)] = (none, "svcfatal:".toList) ∧
    Fatalf mutedLogger ("T".toList) (fun _ => none) (fun _ => none) ("x".toList) =
      (none, "svcfatal:".toList) := by
  have h := fatal_panic_contract sampleLogger ("T".toList) (fun _ => none)
    (fun _ => some ("boom".toList)) [Arg.str ("x".toList)] ("x".toList)
  have h2 := fatal_panic_contract mutedLogger ("T".toList) (fun _ => none)
    (fun _ => none) [Arg.str ("x".toList)] ("x".toList)
  refine ⟨?_, (h2.2.2.1 (by decide)).trans (by decide),
    (h2.2.2.2.2.2 (by decide)).trans (by decide)⟩
  have h1 : (Fatal sampleLogger ("T".toList) (fun _ => none)
      (fun _ => some ("boom".toList)) [Arg.str ("x".toList)]).1 =
      some ("T: svc:fatal: x\n".toList) := by decide
  have hp := (h.2.1 ("boom".toList) (by decide)).trans (by decide :
    Name sampleLogger ++ sampleLogger.severityNames.getD FatalIssuer [] ++ ("boom".toList) =
      "svcfatal:boom".toList)
  exact Prod.ext h1 hp

/-- C1 counterexample: for the accepted call below (message `"hi\n"`,
call-site resolution failing), the emitted line is not the claimed
exact concatenation `timestamp ++ name ++ label ++ " " ++ rendered
message ++ terminator`, because the message already ends in a
terminator and none is appended after it. -/
theorem line_format_counterexample :
    ((Log sampleLogger ("T".toList) (fun _ => none) (fun _ => none) InfoIssuer
      [Arg.str ("hi\n".toList)]).1).isSome = true ∧
    (Log sampleLogger ("T".toList) (fun _ => none) (fun _ => none) InfoIssuer
      [Arg.str ("hi\n".toList)]).1 ≠
      some (("T".toList) ++ sampleLogger.name ++
        sampleLogger.severityNames.getD InfoIssuer [] ++ callerSeg none ++ [' '] ++
        renderBody [Arg.str ("hi\n".toList)] ++ ['\n']) := by decide

/-- C1 (amended): on every accepted call the emitted line is exactly,
in order: the formatted timestamp, the configured name with its
delimiters, the severity label for the level, the call-site segment
(a space and `<basefile>:<line>:`) only when resolution succeeded,
a single space, the rendered message, and then a line terminator
appended only when the rendered message does not already end in one. -/
theorem line_format (l : Logger) (ts : List Char)
    (resolve : Nat → Option (List Char × Nat)) (wr : List Char → Option (List Char))
    (level : Severity) (msg : List Arg)
    (hmin : l.minLevel ≤ level) (hlt : level < DisableIssuer)
    (hne : (stripMarker msg).2 ≠ []) :
    (Log l ts resolve wr level msg).1 =
      some (ts ++ l.name ++ l.severityNames.getD level [] ++
        callerSeg (resolve ((stripMarker msg).1 + 2)) ++ [' '] ++
        renderBody (stripMarker msg).2 ++
        (if (renderBody (stripMarker msg).2).getLast? = some '\n' then []
         else ['\n'])) := by
  have hmsg : msg ≠ [] := by
    intro he
    subst he
    exact hne rfl
  have hc : ¬(level < l.minLevel ∨ DisableIssuer ≤ level ∨ msg = []) := by
    push_neg
    exact ⟨hmin, hlt, hmsg⟩
  unfold Log
  rw [if_neg hc, if_neg hne, logLine_eq]

/-- Witness for C1: an accepted Error-level call with a resolved call
site produces exactly the documented line. -/
theorem line_format_witness :
    (Log sampleLogger ("T".toList) (fun _ => some (("/a/b/main.go".toList), 42))
      (fun _ => none) ErrorIssuer [Arg.str ("ready".toList)]).1 =
      some ("T: svc:error: main.go:42: ready\n".toList) := by
  have h := line_format sampleLogger ("T".toList)
    (fun _ => some (("/a/b/main.go".toList), 42)) (fun _ => none) ErrorIssuer
    [Arg.str ("ready".toList)] (by decide) (by decide) (by decide)
  exact h.trans (by decide)

/-- C2 counterexample: a written line can end in two line terminators
(message `"boom\n\n"`), so it does not end in exactly one regardless of
whether the message already ended in one or more. -/
theorem trailing_newline_counterexample :
    ((Log sampleLogger ("T".toList) (fun _ => none) (fun _ => none) WarnIssuer
      [Arg.str ("boom\n\n".toList)]).1).isSome = true ∧
    trailingNL (((Log sampleLogger ("T".toList) (fun _ => none) (fun _ => none)
      WarnIssuer [Arg.str ("boom\n\n".toList)]).1).getD []) = 2 := by decide

/-- C2 (amended): every written line ends with a line terminator; one
is appended when the rendered message does not end with one (giving
exactly one trailing terminator), and nothing is appended when it
already does, so the line's trailing-terminator count is the maximum of
1 and the rendered message's own trailing count. -/
theorem trailing_newline (l : Logger) (ts : List Char)
    (resolve : Nat → Option (List Char × Nat)) (wr : List Char → Option (List Char))
    (level : Severity) (msg : List Arg) (out : List Char) (err : Option (List Char))
    (h : Log l ts resolve wr level msg = (some out, err)) :
    out.getLast? = some '\n' ∧
    trailingNL out = max 1 (trailingNL (renderBody (stripMarker msg).2)) := by
  unfold Log at h
  split at h
  · exact absurd h (by simp)
  · split at h
    · exact absurd h (by simp)
    · have hout : logLine l ts resolve level msg = out := by
        have := congrArg Prod.fst h
        simpa using this
      subst hout
      rw [logLine_eq]
      by_cases hb : (renderBody (stripMarker msg).2).getLast? = some '\n'
      · rw [if_pos hb, List.append_nil]
        constructor
        · rw [List.getLast?_append, hb]
          rfl
        · rw [trailingNL_space]
          have := trailingNL_pos hb
          omega
      · rw [if_neg hb]
        constructor
        · rw [List.getLast?_append]
          rfl
        · rw [trailingNL_concat_nl, trailingNL_space, trailingNL_eq_zero hb]
          rfl

/-- Witness for C2: an accepted Warn-level call whose message has no
terminator yields a line ending in exactly one. -/
theorem trailing_newline_witness :
    ("T: svc:warn: ok\n".toList).getLast? = some '\n' ∧
    trailingNL ("T: svc:warn: ok\n".toList) =
      max 1 (trailingNL (renderBody (stripMarker [Arg.str ("ok".toList)]).2)) :=
  trailing_newline sampleLogger ("T".toList) (fun _ => none) (fun _ => none)
    WarnIssuer [Arg.str ("ok".toList)] ("T: svc:warn: ok\n".toList) none (by decide)

end Loggy
